import Mathlib

/-!
Shallow embedding of the Lighthouse batch runner (index.js and the earlier
batch variant, here called `Part0`).  External collaborators (the filesystem,
the Chrome launcher, the Lighthouse engine, the WHATWG URL parser, the
JavaScript string primitives) are modelled explicitly: file contents as
`Option String` (absent / present), the launcher and engine as
`Except`-valued outcomes supplied per call, and category scores as the
already-rounded integers the engine yields.
-/

namespace LHRun

/-! ## JavaScript string primitives

`String.trim`, `String.startsWith` and `String.split` of JS, modelled on
the character list underlying a Lean `String` so that every definition
evaluates inside the kernel. -/

namespace Js

/-- JS `s.trim()`: strip leading and trailing whitespace. -/
def trim (s : String) : String :=
  ⟨((s.data.dropWhile Char.isWhitespace).reverse.dropWhile
      Char.isWhitespace).reverse⟩

/-- JS `s.startsWith(pre)`. -/
def startsWith (s pre : String) : Bool :=
  pre.data.isPrefixOf s.data

/-- JS `content.split("\n")` on the underlying characters: group maximal
runs between newline characters, keeping empty groups. -/
def splitNlChars : List Char → List (List Char)
  | [] => [[]]
  | c :: rest =>
    match splitNlChars rest with
    | [] => [[]]
    | g :: gs => if c = '\n' then [] :: g :: gs else (c :: g) :: gs

/-- JS `content.split("\n")`. -/
def splitNl (content : String) : List String :=
  (splitNlChars content.data).map String.mk

/-- JS `array.join("\n")`. -/
def joinNl : List String → String
  | [] => ""
  | [x] => x
  | x :: y :: xs => x ++ "\n" ++ joinNl (y :: xs)

end Js

/-- A CSV score cell value as it sits on an audit-result record in JS:
a number (`Math.round(score*100)`), the string `"N/A"`, or `undefined`
(the field was never set, as in `Part0`'s catch handler). -/
inductive ScoreVal where
  | num (n : Int)
  | na
  | absent
  deriving DecidableEq, Repr

/-- The per-URL result record built by `runLighthouse` /
`runLighthouseWithRetry` (fields exactly as in the JS object literals;
`error = none` models both `error: null` and an absent `error` field). -/
structure AuditResult where
  url : String
  Performance : ScoreVal
  Accessibility : ScoreVal
  BestPractices : ScoreVal
  SEO : ScoreVal
  error : Option String
  deriving DecidableEq, Repr

/-- JS truthiness of the `error` field: `null`/`undefined` and `""` are
falsy, every other string is truthy (used by `if (!result.error)`). -/
def falsyErr : Option String → Bool
  | none => true
  | some s => s = ""

/-- The failure record produced by the catch branches of `index.js`
(`runLighthouse` and `runLighthouseWithRetry`): all four scores `"N/A"`,
`error` = the thrown message. -/
def failAudit (url msg : String) : AuditResult :=
  { url := url, Performance := .na, Accessibility := .na,
    BestPractices := .na, SEO := .na, error := some msg }

/-! ## Model of the WHATWG URL parser (Node's global `URL`)

`new URL(s)` succeeds iff `s` begins with a valid scheme (an ASCII letter
followed by letters, digits, `+`, `-`, `.`) and a `:`; for the special
network schemes (`http`, `https`, `ws`, `wss`, `ftp`) the parser
additionally requires a non-empty host after skipping any leading slashes.
This models exactly the fragment of the parser the repository exercises. -/

/-- Split a character list at the first `:`, returning the parts before and
after it, or `none` when there is no colon. -/
def splitAtColon : List Char → Option (List Char × List Char)
  | [] => none
  | c :: rest =>
    if c = ':' then some ([], rest)
    else (splitAtColon rest).map (fun p => (c :: p.1, p.2))

def isSchemeTailChar (c : Char) : Bool :=
  c.isAlphanum || c = '+' || c = '-' || c = '.'

def validScheme : List Char → Bool
  | [] => false
  | c :: rest => c.isAlpha && rest.all isSchemeTailChar

/-- The WHATWG "special" schemes that require a non-empty host (`file`,
whose host may be empty, is left aside). -/
def specialSchemes : List (List Char) :=
  ["http".data, "https".data, "ws".data, "wss".data, "ftp".data]

def isHostDelim (c : Char) : Bool :=
  c = '/' || c = ':' || c = '?' || c = '#' || c = '\\'

/-- Whether `new URL(s)` succeeds (see the section comment above). -/
def urlParses (s : String) : Bool :=
  match splitAtColon s.data with
  | none => false
  | some (scheme, rest) =>
    validScheme scheme &&
      (if specialSchemes.contains scheme then
        (((rest.dropWhile (fun c => c = '/' || c = '\\')).takeWhile
            (fun c => !(isHostDelim c))).length != 0)
      else true)

/-! ## UrlSource (index.js `loadUrls` / `validateUrl`, Part0's `urlList`) -/

/-- Model of `validateUrl` from index.js: `try { new URL(url); return true } catch
{ return false }`. -/
def validateUrl (url : String) : Bool :=
  urlParses url

/-- The line pipeline of index.js `loadUrls`:
`content.split("\n").map(l => l.trim()).filter(l => l.startsWith("http") && validateUrl(l))`. -/
def parseLines (content : String) : List String :=
  ((Js.splitNl content).map Js.trim).filter
    (fun l => Js.startsWith l "http" && validateUrl l)

/-- The built-in default URL list of index.js. -/
def defaultUrls : List String :=
  ["https://ascenten.net/culture.html",
   "https://ascenten.net/affirmative-action-policy.html"]

/-- Model of `fs.existsSync(path)` over the modelled file (present / absent). -/
def existsSync (file : Option String) : Bool :=
  file.isSome

/-- Model of `fs.readFileSync(path)`: yields the contents, or throws `ENOENT` when
the file is absent. -/
def readFileSync : Option String → Except String String
  | some c => .ok c
  | none => .error "ENOENT: no such file or directory"

/-- index.js `loadUrls`, structure kept verbatim: the guard is
`if (!fs.existsSync(options.urls))` — note the negation — and only that
branch reads and filters the file; the function then returns the parsed
list when non-empty, else `defaultUrls`.  A throw from `readFileSync`
propagates (modelled as `Except.error`). -/
def loadUrls (file : Option String) : Except String (List String) := do
  let urlList ←
    if !(existsSync file) then do
      let content ← readFileSync file
      pure (parseLines content)
    else
      pure []
  pure (if urlList.length ≠ 0 then urlList else defaultUrls)

namespace Part0

/-- Part0's line filter keeps a trimmed line iff it starts with the literal
prefix `"http"`; there is no URL-parse check. -/
def urlListOf (content : String) : List String :=
  ((Js.splitNl content).map Js.trim).filter (fun l => Js.startsWith l "http")

/-- Part0's top-level `urlList`: read and filter `urls.txt` when it exists,
else stay empty. -/
def urlList (file : Option String) : List String :=
  match file with
  | some c => urlListOf c
  | none => []

/-- Part0's `defaultUrls` is the empty list. -/
def defaultUrls : List String := []

/-- Part0's `urls`: `urlList.length ? urlList : defaultUrls`. -/
def urls (file : Option String) : List String :=
  if (urlList file).length ≠ 0 then urlList file else defaultUrls

end Part0

/-! ## NamingPolicy (`safeName`) -/

/-- Model of `new URL(url).hostname`: the WHATWG host component — everything after
the scheme colon and any leading slashes, up to the first delimiter
(`/ : ? # \`), so the port is excluded. -/
def hostname (url : String) : String :=
  match splitAtColon url.data with
  | none => ""
  | some (_, rest) =>
    ⟨(rest.dropWhile (fun c => c = '/' || c = '\\')).takeWhile
      (fun c => !(isHostDelim c))⟩

/-- JS `host.replace(/\./g, "_")`. -/
def dotsToUnderscores (s : String) : String :=
  ⟨s.data.map (fun c => if c = '.' then '_' else c)⟩

/-- JS `isoStamp.replace(/[:.]/g, "-")`. -/
def stampSafe (s : String) : String :=
  ⟨s.data.map (fun c => if c = ':' || c = '.' then '-' else c)⟩

/-- Function `safeName` (same body in index.js and Part0):
`` `${host}__${stamp}` `` with `host = new URL(url).hostname.replace(/\./g,"_")`
and `stamp = now.toISOString().replace(/[:.]/g,"-")`.  The current instant
enters as the ISO timestamp string `isoStamp`. -/
def safeName (url : String) (isoStamp : String) : String :=
  dotsToUnderscores (hostname url) ++ "__" ++ stampSafe isoStamp

/-! ## AuditEngineAdapter (`runLighthouse`, both variants)

The Chrome launcher and the Lighthouse engine are external: one call's
behaviour is a pair of outcomes, `launch : Except String Unit` (throw or
succeed) and `engine : Except String LhrCategories` (throw, or return a
report whose category scores — already multiplied by 100 and rounded — are
present or absent per category).  `chrome.kill()` is taken to succeed, as
the claims quantify over engine outcomes only.  `launches`/`kills` count
the browser processes started and terminated during the call. -/

/-- The category table of a successful engine run; `none` models an omitted
category, `some n` a category whose rounded percentage score is `n`. -/
structure LhrCategories where
  performance : Option Int
  accessibility : Option Int
  bestPractices : Option Int
  seo : Option Int
  deriving DecidableEq, Repr

/-- One adapter call, instrumented: the value returned (or exception
propagated), and how many browser processes were launched and killed. -/
structure AdapterRun where
  outcome : Except String AuditResult
  launches : Nat
  kills : Nat
  deriving Repr

/-- Model of `cat ? Math.round(cat.score * 100) : "N/A"` from index.js. -/
def roundScore : Option Int → ScoreVal
  | some n => .num n
  | none => .na

/-- index.js `runLighthouse`: launch Chrome, run the engine, build the
score record; any throw is caught and turned into a failure record; the
`finally` block kills Chrome iff it was launched. -/
def runLighthouse (url : String) (launch : Except String Unit)
    (engine : Except String LhrCategories) : AdapterRun :=
  match launch with
  | .error msg =>
    { outcome := .ok (failAudit url msg), launches := 0, kills := 0 }
  | .ok _ =>
    match engine with
    | .ok lhr =>
      { outcome := .ok
          { url := url
            Performance := roundScore lhr.performance
            Accessibility := roundScore lhr.accessibility
            BestPractices := roundScore lhr.bestPractices
            SEO := roundScore lhr.seo
            error := none }
        launches := 1, kills := 1 }
    | .error msg =>
      { outcome := .ok (failAudit url msg), launches := 1, kills := 1 }

namespace Part0

/-- Part0's `runLighthouse`: no try/catch — a launch or engine throw
propagates to the caller, and `chrome.kill()` runs only after the engine
call returns.  On a returned report the scores are read with
`lhr.categories.<cat>.score` directly, so an omitted category raises a
`TypeError` (after the kill). -/
def runLighthouse (url : String) (launch : Except String Unit)
    (engine : Except String LHRun.LhrCategories) : LHRun.AdapterRun :=
  match launch with
  | .error msg => { outcome := .error msg, launches := 0, kills := 0 }
  | .ok _ =>
    match engine with
    | .error msg => { outcome := .error msg, launches := 1, kills := 0 }
    | .ok lhr =>
      match lhr.performance, lhr.accessibility, lhr.bestPractices, lhr.seo with
      | some p, some a, some b, some s =>
        { outcome := .ok
            { url := url, Performance := .num p, Accessibility := .num a,
              BestPractices := .num b, SEO := .num s, error := none }
          launches := 1, kills := 1 }
      | _, _, _, _ =>
        { outcome := .error "TypeError: cannot read score of undefined"
          launches := 1, kills := 1 }

end Part0

/-! ## RetryOrchestrator (index.js `runLighthouseWithRetry`)

Attempt `k`'s external behaviour is given by `launchAt k` / `engineAt k`
(1-indexed).  The loop body mirrors the source: a returned record with a
falsy `error` is returned at once; a truthy `error` retries while
`attempt <= maxRetries`; a thrown error (never produced by the index.js
adapter, but the catch branch is modelled all the same) is returned as a
failure record once `attempt > maxRetries`. -/

/-- One iteration of the `for (let attempt = 1; ...)` loop, returning the
final record together with the index of the attempt that produced it. -/
def retryLoop (url : String) (launchAt : Nat → Except String Unit)
    (engineAt : Nat → Except String LhrCategories) (maxRetries : Nat)
    (attempt : Nat) : AuditResult × Nat :=
  match (runLighthouse url (launchAt attempt) (engineAt attempt)).outcome with
  | .ok result =>
    if falsyErr result.error then (result, attempt)
    else if attempt ≤ maxRetries then
      retryLoop url launchAt engineAt maxRetries (attempt + 1)
    else (result, attempt)
  | .error msg =>
    if maxRetries < attempt then (failAudit url msg, attempt)
    else retryLoop url launchAt engineAt maxRetries (attempt + 1)
termination_by maxRetries + 1 - attempt
decreasing_by all_goals omega

/-- index.js `runLighthouseWithRetry`, instrumented with the number of
attempts performed. -/
def runLighthouseWithRetry (url : String) (launchAt : Nat → Except String Unit)
    (engineAt : Nat → Except String LhrCategories) (maxRetries : Nat) :
    AuditResult × Nat :=
  retryLoop url launchAt engineAt maxRetries 1

/-- Whether attempt `k` of a job fails (the adapter call either returns a
record with a truthy `error`, or throws). -/
def attemptFails (url : String) (launchAt : Nat → Except String Unit)
    (engineAt : Nat → Except String LhrCategories) (k : Nat) : Bool :=
  match (runLighthouse url (launchAt k) (engineAt k)).outcome with
  | .ok r => !(falsyErr r.error)
  | .error _ => true

/-- The record attempt `k` contributes when it is the one returned: the
adapter's record, or the synthesized failure record for a throw. -/
def attemptResult (url : String) (launchAt : Nat → Except String Unit)
    (engineAt : Nat → Except String LhrCategories) (k : Nat) : AuditResult :=
  match (runLighthouse url (launchAt k) (engineAt k)).outcome with
  | .ok r => r
  | .error msg => failAudit url msg

/-! ## JobScheduler (index.js `runAllTests`, Part0's `runInBatches`)

A job's external behaviour is indexed by its URL (and, for index.js, by the
attempt number).  The pacing delays (2 s / 500 ms) have no effect on the
returned collection and are not modelled. -/

/-- index.js `runAllTests`: process the URLs one after the other, each via
`runLighthouseWithRetry`, pushing each result in order. -/
def runAllTests (launchAt : String → Nat → Except String Unit)
    (engineAt : String → Nat → Except String LhrCategories)
    (maxRetries : Nat) (urls : List String) : List AuditResult :=
  urls.map (fun u =>
    (runLighthouseWithRetry u (launchAt u) (engineAt u) maxRetries).1)

namespace Part0

/-- The batch partition of Part0's `runInBatches`:
`for (let i = 0; i < urls.length; i += batchSize) batches.push(urls.slice(i, i + batchSize))`.
The JS loop never advances when `batchSize = 0`, so the partition is
defined for `1 ≤ batchSize` only. -/
def makeBatches {α : Type} (batchSize : Nat) (h : 1 ≤ batchSize) :
    List α → List (List α)
  | [] => []
  | x :: xs =>
    (x :: xs).take batchSize ::
      makeBatches batchSize h ((x :: xs).drop batchSize)
termination_by l => l.length
decreasing_by simp [List.length_drop]; omega

/-- One slot of a batch:
`runLighthouse(u).catch((err) => ({ url: u, error: err.message }))` — the
catch record carries no score fields at all (`undefined`). -/
def settleJob (launch0 : String → Except String Unit)
    (engine0 : String → Except String LHRun.LhrCategories) (u : String) :
    AuditResult :=
  match (Part0.runLighthouse u (launch0 u) (engine0 u)).outcome with
  | .ok r => r
  | .error msg =>
    { url := u, Performance := .absent, Accessibility := .absent,
      BestPractices := .absent, SEO := .absent, error := some msg }

/-- Part0's `runInBatches`: run each batch (results gathered in batch
order by `Promise.all`), appending `batchResults` to `results`. -/
def runInBatches (launch0 : String → Except String Unit)
    (engine0 : String → Except String LHRun.LhrCategories)
    (urls : List String) (batchSize : Nat) (h : 1 ≤ batchSize) :
    List AuditResult :=
  (makeBatches batchSize h urls).foldl
    (fun results batch => results ++ batch.map (settleJob launch0 engine0)) []

end Part0

/-! ## ReportSink (index.js `generateCSV`, Part0's CSV block)

`${v || ""}` in a template literal: a falsy value (the number 0, `""`,
`undefined`, `null`) prints as the empty string, anything else via its
string form. -/

def quoteField (s : String) : String := "\"" ++ s ++ "\""

/-- The text a score field contributes under `${score || ""}`. -/
def scoreField : ScoreVal → String
  | .num n => if n = 0 then "" else toString n
  | .na => "N/A"
  | .absent => ""

/-- The text the error field contributes under `${r.error || ""}`. -/
def errField : Option String → String
  | some m => m
  | none => ""

def csvHeader : String := "URL,Performance,Accessibility,BestPractices,SEO,Error"

/-- One row of index.js `generateCSV`:
`` `"${r.url}",${P||""},${A||""},${B||""},${S||""},"${r.error||""}"` ``. -/
def csvRow (r : AuditResult) : String :=
  quoteField r.url ++ "," ++ scoreField r.Performance ++ "," ++
    scoreField r.Accessibility ++ "," ++ scoreField r.BestPractices ++ "," ++
    scoreField r.SEO ++ "," ++ quoteField (errField r.error)

/-- Model of `[header, ...rows].join("\n")` from index.js `generateCSV`. -/
def csvContent (results : List AuditResult) : String :=
  Js.joinNl (csvHeader :: results.map csvRow)

/-- index.js `generateCSV`'s file effect: `fs.writeFileSync` replaces the
destination, whatever it held before. -/
def generateCSV (previous : Option String) (results : List AuditResult) :
    Option String :=
  some (csvContent results)

namespace Part0

def csvHeader : String := "URL,Performance,Accessibility,BestPractices,SEO"

/-- One row of Part0's CSV block (no error column). -/
def csvRow (r : AuditResult) : String :=
  quoteField r.url ++ "," ++ scoreField r.Performance ++ "," ++
    scoreField r.Accessibility ++ "," ++ scoreField r.BestPractices ++ "," ++
    scoreField r.SEO

def csvContent (results : List AuditResult) : String :=
  Js.joinNl (Part0.csvHeader :: results.map Part0.csvRow)

end Part0

/-- The `|| ""` coercion erases a zero score: `zeroToAbsent` maps a score
that is exactly the number 0 to the absent value and leaves every other
value unchanged. -/
def zeroToAbsent : ScoreVal → ScoreVal
  | .num n => if n = 0 then .absent else .num n
  | .na => .na
  | .absent => .absent

/-- Replace every zero score of a record by the absent value. -/
def eraseZeroScores (r : AuditResult) : AuditResult :=
  { r with
    Performance := zeroToAbsent r.Performance
    Accessibility := zeroToAbsent r.Accessibility
    BestPractices := zeroToAbsent r.BestPractices
    SEO := zeroToAbsent r.SEO }

/-! ## Run outcomes (index.js `main`, Part0's closing IIFE) -/

/-- What a whole run leaves behind: the process exit code and the summary
file (content, or absent). -/
structure RunOutcome where
  exitCode : Nat
  summaryFile : Option String
  deriving DecidableEq, Repr

/-- index.js `main` from the point the URL list is in hand (lines 234-252):
an empty list exits with code 1 before any file is touched; otherwise the
tests run and the summary is written. -/
def mainAfterLoad (launchAt : String → Nat → Except String Unit)
    (engineAt : String → Nat → Except String LhrCategories)
    (maxRetries : Nat) (urls : List String) : RunOutcome :=
  if urls.length = 0 then { exitCode := 1, summaryFile := none }
  else
    { exitCode := 0
      summaryFile :=
        some (csvContent (runAllTests launchAt engineAt maxRetries urls)) }

namespace Part0

/-- Part0's closing IIFE: `runInBatches(urls, 1)` then the CSV write; there
is no empty-list guard, and the process ends normally. -/
def mainRun (file : Option String) (launch0 : String → Except String Unit)
    (engine0 : String → Except String LHRun.LhrCategories) : RunOutcome :=
  { exitCode := 0
    summaryFile :=
      some (Part0.csvContent
        (runInBatches launch0 engine0 (Part0.urls file) 1 (by decide))) }

end Part0

/-! ## Helper lemmas -/

theorem append_right_cancel_str {a b : String} (c : String)
    (h : a ++ c = b ++ c) : a = b := by
  have hd := congrArg String.data h
  rw [String.data_append, String.data_append] at hd
  have hlen : a.data.length = b.data.length := by
    have hl := congrArg List.length hd
    rw [List.length_append, List.length_append] at hl
    omega
  exact String.ext (List.append_inj_left hd hlen)

theorem startsWith_http_of_scheme {l : String}
    (h : Js.startsWith l "http:" = true ∨ Js.startsWith l "https:" = true) :
    Js.startsWith l "http" = true := by
  have base : ∀ pre : String, "http".data <+: pre.data →
      Js.startsWith l pre = true → Js.startsWith l "http" = true := by
    intro pre hpre hl
    rw [Js.startsWith, List.isPrefixOf_iff_prefix] at hl ⊢
    exact hpre.trans hl
  rcases h with h | h
  · exact base "http:" ⟨[':'], by decide⟩ h
  · exact base "https:" ⟨['s', ':'], by decide⟩ h

/-! ## Claim theorems -/

/-- C1: the claim says `loadUrls` parses the source file when it exists and
falls back to the defaults when it is absent.  The code's guard is
inverted (`if (!fs.existsSync(options.urls))`): with the file present —
even holding a valid candidate, as `parseLines` shows — the file is
ignored and the defaults are returned, and with the file absent the read
is attempted and throws.  The claim describes the obvious intent (the
code's own log strings and the Part0 variant both read the file when it
exists), so this is a code bug, evaluated here at the failing inputs. -/
theorem loadUrls_inverted_dispatch :
    loadUrls (some "https://example.com") = .ok defaultUrls
    ∧ parseLines "https://example.com" = ["https://example.com"]
    ∧ defaultUrls ≠ ["https://example.com"]
    ∧ loadUrls none = .error "ENOENT: no such file or directory" := by
  exact ⟨rfl, by decide, by decide, rfl⟩

/-- C6 (counterexample): the trimmed line `"httpfoo:x"` does not begin with
an HTTP(S) scheme token, yet index.js keeps it (its filter tests only the
literal prefix `"http"`, and the URL parser accepts the scheme `httpfoo`);
and the line `"httpjunk"` fails URL parsing entirely, yet Part0 keeps it
(its filter has no parse check at all).  Both kept lines land in the
respective validated URL sets. -/
theorem ingestion_filter_counterexample :
    parseLines "httpfoo:x" = ["httpfoo:x"]
    ∧ Js.startsWith "httpfoo:x" "http:" = false
    ∧ Js.startsWith "httpfoo:x" "https:" = false
    ∧ Part0.urlListOf "httpjunk" = ["httpjunk"]
    ∧ urlParses "httpjunk" = false := by
  exact ⟨by decide, by decide, by decide, by decide, by decide⟩

/-- C6 (amended): a trimmed line is kept by index.js iff it begins with the
literal four characters `"http"` and parses as a URL — any scheme whose
name merely extends `http` passes — and by Part0 iff it begins with
`"http"`, with no parse requirement.  In particular every line that does
begin with an actual `http:`/`https:` scheme and parses is kept. -/
theorem ingestion_filter_amended (content l : String) :
    (l ∈ parseLines content ↔
      l ∈ (Js.splitNl content).map Js.trim ∧
        (Js.startsWith l "http" && validateUrl l) = true)
    ∧ (l ∈ Part0.urlListOf content ↔
      l ∈ (Js.splitNl content).map Js.trim ∧ Js.startsWith l "http" = true)
    ∧ (l ∈ (Js.splitNl content).map Js.trim →
        (Js.startsWith l "http:" = true ∨ Js.startsWith l "https:" = true) →
        validateUrl l = true → l ∈ parseLines content) := by
  refine ⟨List.mem_filter, List.mem_filter, ?_⟩
  intro hmem hscheme hvalid
  exact List.mem_filter.mpr
    ⟨hmem, by rw [startsWith_http_of_scheme hscheme, hvalid]; rfl⟩

/-- C6 (witness): the line `https://good.test` of a one-line source file is
kept by index.js. -/
theorem ingestion_filter_amended_witness :
    "https://good.test" ∈ parseLines "https://good.test" := by
  exact (ingestion_filter_amended "https://good.test" "https://good.test").2.2
    (by decide) (Or.inr (by decide)) (by decide)

/-- C7 (counterexample): the URLs `https://a.b` and `https://a_b` — both
accepted by the URL parser — have different host components, yet `safeName`
gives them the same name at the same timestamp, because replacing `.` by
`_` conflates the two hosts. -/
theorem safeName_collision_counterexample :
    validateUrl "https://a.b" = true
    ∧ validateUrl "https://a_b" = true
    ∧ hostname "https://a.b" ≠ hostname "https://a_b"
    ∧ safeName "https://a.b" "2025-01-01T10:21:55.123Z"
        = safeName "https://a_b" "2025-01-01T10:21:55.123Z" := by
  exact ⟨by decide, by decide, by decide, by decide⟩

/-- C7 (amended): `safeName` is a pure function of the URL's host and the
timestamp — URLs with equal hosts get equal names at equal timestamps —
and two URLs whose hosts still differ *after* the `.`→`_` replacement
never collide at the same timestamp.  (Hosts equal up to `.`↔`_`, as in
the counterexample, may collide.) -/
theorem safeName_amended (u1 u2 t : String)
    (h : dotsToUnderscores (hostname u1) ≠ dotsToUnderscores (hostname u2)) :
    safeName u1 t ≠ safeName u2 t
    ∧ (hostname u1 = hostname u2 → safeName u1 t = safeName u2 t) := by
  constructor
  · intro heq
    rw [safeName, safeName] at heq
    exact h (append_right_cancel_str "__"
      (append_right_cancel_str (stampSafe t)
        (by rw [String.append_assoc, String.append_assoc] at heq ⊢; exact heq)))
  · intro hh
    rw [safeName, safeName, hh]

/-- C7 (witness): two URLs with genuinely distinct hosts (distinct even
after the `.`→`_` replacement) get distinct names at the same timestamp. -/
theorem safeName_amended_witness :
    safeName "https://ascenten.net" "2025-01-01T10:21:55.123Z"
      ≠ safeName "https://example.org" "2025-01-01T10:21:55.123Z" := by
  exact (safeName_amended "https://ascenten.net" "https://example.org"
    "2025-01-01T10:21:55.123Z" (by decide)).1

theorem retryLoop_all_fail (url : String) (launchAt : Nat → Except String Unit)
    (engineAt : Nat → Except String LhrCategories) (R : Nat)
    (h : ∀ k, attemptFails url launchAt engineAt k = true) :
    ∀ (n a : Nat), a + n = R + 1 →
      retryLoop url launchAt engineAt R a
        = (attemptResult url launchAt engineAt (R + 1), R + 1) := by
  intro n
  induction n with
  | zero =>
    intro a ha
    have haR : a = R + 1 := by omega
    subst haR
    rw [retryLoop]
    have hfail := h (R + 1)
    rw [attemptFails] at hfail
    rw [attemptResult]
    rcases ho : (runLighthouse url (launchAt (R + 1)) (engineAt (R + 1))).outcome
      with m | r
    · simp only [ho]
      rw [if_pos (by omega)]
    · rw [ho] at hfail
      simp only at hfail
      rw [Bool.not_eq_true'] at hfail
      simp only [ho, hfail]
      rw [if_neg (by simp), if_neg (by omega)]
  | succ n ih =>
    intro a ha
    have haR : a ≤ R := by omega
    rw [retryLoop]
    have hfail := h a
    rw [attemptFails] at hfail
    rcases ho : (runLighthouse url (launchAt a) (engineAt a)).outcome with m | r
    · simp only [ho]
      rw [if_neg (by omega)]
      exact ih (a + 1) (by omega)
    · rw [ho] at hfail
      simp only at hfail
      rw [Bool.not_eq_true'] at hfail
      simp only [ho, hfail]
      rw [if_neg (by simp), if_pos haR]
      exact ih (a + 1) (by omega)

/-- C2: when every attempt of a job fails (the adapter call returns a
record with a truthy `error`, or throws), `runLighthouseWithRetry` with
`maxRetries = R` performs exactly `R + 1` attempts and returns the record
of the final attempt — in particular its `error` field is the final
attempt's error, and `R = 0` means exactly one attempt. -/
theorem retry_bound (url : String) (launchAt : Nat → Except String Unit)
    (engineAt : Nat → Except String LhrCategories) (R : Nat)
    (h : ∀ k, attemptFails url launchAt engineAt k = true) :
    (runLighthouseWithRetry url launchAt engineAt R).2 = R + 1
    ∧ (runLighthouseWithRetry url launchAt engineAt R).1
      = attemptResult url launchAt engineAt (R + 1)
    ∧ (runLighthouseWithRetry url launchAt engineAt R).1.error
      = (attemptResult url launchAt engineAt (R + 1)).error := by
  have hloop := retryLoop_all_fail url launchAt engineAt R h R 1 (by omega)
  rw [runLighthouseWithRetry, hloop]
  exact ⟨rfl, rfl, rfl⟩

/-- C2 (witness): with an engine that throws `"boom"` on every attempt and
`maxRetries = 2`, exactly 3 attempts happen and the returned record is the
final attempt's failure record. -/
theorem retry_bound_witness :
    (runLighthouseWithRetry "https://x.test" (fun _ => .ok ())
        (fun _ => .error "boom") 2).2 = 3
    ∧ (runLighthouseWithRetry "https://x.test" (fun _ => .ok ())
        (fun _ => .error "boom") 2).1
      = attemptResult "https://x.test" (fun _ => .ok ())
          (fun _ => .error "boom") 3 := by
  have hr := retry_bound "https://x.test" (fun _ => .ok ())
    (fun _ => .error "boom") 2 (fun _ => rfl)
  exact ⟨hr.1, hr.2.1⟩

theorem makeBatches_join {α : Type} (batchSize : Nat) (h : 1 ≤ batchSize) :
    ∀ (n : Nat) (l : List α), l.length ≤ n →
      (Part0.makeBatches batchSize h l).flatten = l := by
  intro n
  induction n with
  | zero =>
    intro l hl
    have hnil : l = [] := by
      cases l with
      | nil => rfl
      | cons x xs => simp at hl
    subst hnil
    simp [Part0.makeBatches]
  | succ n ih =>
    intro l hl
    cases l with
    | nil => simp [Part0.makeBatches]
    | cons x xs =>
      have hlen : ((x :: xs).drop batchSize).length ≤ n := by
        rw [List.length_drop]
        simp only [List.length_cons]
        simp only [List.length_cons] at hl
        omega
      rw [Part0.makeBatches, List.flatten_cons, ih _ hlen,
        List.take_append_drop]

theorem foldl_append_map {α β : Type} (f : α → β) (bs : List (List α)) :
    ∀ acc : List β,
      bs.foldl (fun results batch => results ++ batch.map f) acc
        = acc ++ bs.flatten.map f := by
  induction bs with
  | nil => intro acc; simp
  | cons b bs ih =>
    intro acc
    simp only [List.foldl_cons, List.flatten_cons, ih, List.map_append,
      List.append_assoc]

theorem runInBatches_eq_map (launch0 : String → Except String Unit)
    (engine0 : String → Except String LhrCategories) (urls : List String)
    (batchSize : Nat) (h : 1 ≤ batchSize) :
    Part0.runInBatches launch0 engine0 urls batchSize h
      = urls.map (Part0.settleJob launch0 engine0) := by
  rw [Part0.runInBatches, foldl_append_map,
    makeBatches_join batchSize h urls.length urls le_rfl, List.nil_append]

/-- C3: both schedulers preserve length and order: the sequential
`runAllTests` and the batched `runInBatches` (for every batch size ≥ 1)
return exactly one record per input URL, and the record at index `i` is
the one produced for the URL at index `i` — by the retrying job for
index.js, and by the caught single run for Part0 — whatever each job's
outcome. -/
theorem scheduler_order_preserving
    (launchAt : String → Nat → Except String Unit)
    (engineAt : String → Nat → Except String LhrCategories)
    (maxRetries : Nat) (launch0 : String → Except String Unit)
    (engine0 : String → Except String LhrCategories) (urls : List String)
    (batchSize : Nat) (h : 1 ≤ batchSize) :
    (runAllTests launchAt engineAt maxRetries urls).length = urls.length
    ∧ (Part0.runInBatches launch0 engine0 urls batchSize h).length
        = urls.length
    ∧ ∀ i : Nat,
        (runAllTests launchAt engineAt maxRetries urls)[i]?
          = urls[i]?.map (fun u =>
              (runLighthouseWithRetry u (launchAt u) (engineAt u)
                maxRetries).1)
        ∧ (Part0.runInBatches launch0 engine0 urls batchSize h)[i]?
          = urls[i]?.map (Part0.settleJob launch0 engine0) := by
  rw [runAllTests, runInBatches_eq_map]
  exact ⟨List.length_map urls _, List.length_map urls _,
    fun i => ⟨List.getElem?_map _ urls i, List.getElem?_map _ urls i⟩⟩

/-- C3 (witness): at batch size 1 on a two-URL list (one job succeeding,
one throwing), both schedulers return exactly 2 records, and index 1 holds
the record of the second URL. -/
theorem scheduler_order_preserving_witness :
    (Part0.runInBatches
        (fun _ => .ok ())
        (fun u => if u = "https://b.test" then .error "boom"
          else .ok ⟨some 90, some 95, some 100, some 88⟩)
        ["https://a.test", "https://b.test"] 1 (by decide)).length = 2
    ∧ (Part0.runInBatches
        (fun _ => .ok ())
        (fun u => if u = "https://b.test" then .error "boom"
          else .ok ⟨some 90, some 95, some 100, some 88⟩)
        ["https://a.test", "https://b.test"] 1 (by decide))[1]?
      = some (Part0.settleJob
          (fun _ => .ok ())
          (fun u => if u = "https://b.test" then .error "boom"
            else .ok ⟨some 90, some 95, some 100, some 88⟩)
          "https://b.test") := by
  have hs := scheduler_order_preserving
    (fun _ _ => .ok ())
    (fun u _ => if u = "https://b.test" then .error "boom"
      else .ok ⟨some 90, some 95, some 100, some 88⟩)
    2
    (fun _ => .ok ())
    (fun u => if u = "https://b.test" then .error "boom"
      else .ok ⟨some 90, some 95, some 100, some 88⟩)
    ["https://a.test", "https://b.test"] 1 (by decide)
  exact ⟨hs.2.1, (hs.2.2 1).2⟩

/-- C4 (counterexample): Part0's `runLighthouse` has no try/catch, so an
engine throw propagates out of the adapter instead of being returned as a
failure record — the claim's "never raises" fails on that variant at a
concrete input. -/
theorem adapter_raises_counterexample :
    (Part0.runLighthouse "https://x.test" (.ok ())
        (.error "NavigationError")).outcome = .error "NavigationError" := by
  exact rfl

/-- C4 (amended): index.js's `runLighthouse` never raises — for every
launch and engine outcome it returns a record, and on a launch or engine
failure the record has all four scores `"N/A"` and `error` = the failure
description (non-empty whenever the thrown message is) — while Part0's
`runLighthouse` propagates the engine exception to its caller. -/
theorem adapter_never_raises_amended (url msg : String)
    (launch : Except String Unit) (engine : Except String LhrCategories)
    (hmsg : msg ≠ "") :
    (∃ r, (runLighthouse url launch engine).outcome = .ok r)
    ∧ (runLighthouse url (.error msg) engine).outcome
        = .ok (failAudit url msg)
    ∧ (runLighthouse url (.ok ()) (.error msg)).outcome
        = .ok (failAudit url msg)
    ∧ (failAudit url msg).Performance = .na
    ∧ (failAudit url msg).Accessibility = .na
    ∧ (failAudit url msg).BestPractices = .na
    ∧ (failAudit url msg).SEO = .na
    ∧ (failAudit url msg).error = some msg
    ∧ falsyErr (failAudit url msg).error = false
    ∧ (Part0.runLighthouse url (.ok ()) (.error msg)).outcome
        = .error msg := by
  refine ⟨?_, rfl, rfl, rfl, rfl, rfl, rfl, rfl, ?_, rfl⟩
  · rcases launch with m | u
    · exact ⟨failAudit url m, rfl⟩
    · rcases engine with m | lhr
      · exact ⟨failAudit url m, rfl⟩
      · exact ⟨_, rfl⟩
  · rw [failAudit]
    simp only [falsyErr]
    exact decide_eq_false hmsg

/-- C4 (witness): a concrete engine timeout yields the all-`"N/A"` failure
record from index.js's adapter rather than an exception. -/
theorem adapter_never_raises_amended_witness :
    ("Timeout" : String) ≠ ""
    ∧ (runLighthouse "https://x.test" (.ok ()) (.error "Timeout")).outcome
        = .ok (failAudit "https://x.test" "Timeout") := by
  refine ⟨by decide, ?_⟩
  exact (adapter_never_raises_amended "https://x.test" "Timeout" (.ok ())
    (.error "Timeout") (by decide)).2.2.1

/-- C5 (counterexample): in Part0's `runLighthouse` the kill site sits
after the engine call with no cleanup handler, so an engine throw after a
successful launch leaves the browser process unterminated: one launch,
zero kills. -/
theorem launch_kill_leak_counterexample :
    (Part0.runLighthouse "https://x.test" (.ok ())
        (.error "EngineCrash")).launches = 1
    ∧ (Part0.runLighthouse "https://x.test" (.ok ())
        (.error "EngineCrash")).kills = 0 := by
  exact ⟨rfl, rfl⟩

/-- C5 (amended): index.js's `runLighthouse` pairs every launch with
exactly one kill on every exit path (the `finally` block); Part0's
`runLighthouse` kills the browser only when the engine call returns — on
an engine throw after a successful launch the launch is unmatched. -/
theorem launch_kill_pairing_amended (url msg : String)
    (launch : Except String Unit) (engine : Except String LhrCategories) :
    (runLighthouse url launch engine).kills
      = (runLighthouse url launch engine).launches
    ∧ ((Part0.runLighthouse url launch engine).outcome.isOk = true →
        (Part0.runLighthouse url launch engine).kills
          = (Part0.runLighthouse url launch engine).launches)
    ∧ (launch = .ok () → engine = .error msg →
        (Part0.runLighthouse url launch engine).launches = 1
        ∧ (Part0.runLighthouse url launch engine).kills = 0) := by
  refine ⟨?_, ?_, ?_⟩
  · rcases launch with m | u
    · rfl
    · rcases engine with m | lhr
      · rfl
      · rfl
  · intro hok
    rcases launch with m | u
    · rfl
    · rcases engine with m | lhr
      · simp [Part0.runLighthouse, Except.isOk, Except.toBool] at hok
      · rcases lhr with ⟨p | p, a | a, b | b, s | s⟩ <;> rfl
  · intro hl he
    subst hl; subst he
    exact ⟨rfl, rfl⟩

/-- C5 (witness): with a successful launch and a crashing engine, Part0's
adapter records one launch and zero kills. -/
theorem launch_kill_pairing_amended_witness :
    (Part0.runLighthouse "https://y.test" (.ok ())
        (.error "EngineCrash2")).launches = 1
    ∧ (Part0.runLighthouse "https://y.test" (.ok ())
        (.error "EngineCrash2")).kills = 0 := by
  exact (launch_kill_pairing_amended "https://y.test" "EngineCrash2" (.ok ())
    (.error "EngineCrash2")).2.2 rfl rfl

theorem splitNlChars_append :
    ∀ (a b g : List Char) (gs : List (List Char)),
      (∀ c ∈ a, c ≠ '\n') →
      Js.splitNlChars b = g :: gs →
      Js.splitNlChars (a ++ b) = (a ++ g) :: gs := by
  intro a
  induction a with
  | nil => intro b g gs _ hb; simpa using hb
  | cons c a ih =>
    intro b g gs ha hb
    have hc : c ≠ '\n' := ha c (by simp)
    simp only [List.cons_append, Js.splitNlChars]
    rw [List.append_eq, ih b g gs (fun x hx => ha x (by simp [hx])) hb]
    simp [hc]

theorem splitNl_joinNl :
    ∀ lines : List String,
      (∀ l ∈ lines, ∀ c ∈ l.data, c ≠ '\n') → lines ≠ [] →
      Js.splitNl (Js.joinNl lines) = lines := by
  intro lines
  induction lines with
  | nil => intro _ hne; exact absurd rfl hne
  | cons x rest ih =>
    intro hnl _
    have hx : ∀ c ∈ x.data, c ≠ '\n' := hnl x (by simp)
    cases rest with
    | nil =>
      have h1 : Js.splitNlChars (x.data ++ []) = (x.data ++ []) :: [] :=
        splitNlChars_append x.data [] [] [] hx rfl
      rw [List.append_nil] at h1
      show (Js.splitNlChars (Js.joinNl [x]).data).map String.mk = [x]
      rw [show Js.joinNl [x] = x from rfl, h1]
      rfl
    | cons y rest2 =>
      have hih := ih (fun l hl => hnl l (by simp [hl])) (by simp)
      rw [Js.splitNl] at hih
      rcases hG : Js.splitNlChars (Js.joinNl (y :: rest2)).data
        with _ | ⟨g, gs⟩
      · rw [hG] at hih; simp at hih
      · rw [hG] at hih
        have hb : Js.splitNlChars ('\n' :: (Js.joinNl (y :: rest2)).data)
            = [] :: g :: gs := by
          simp only [Js.splitNlChars]
          rw [hG]
          simp
        have hA := splitNlChars_append x.data _ _ _ hx hb
        show (Js.splitNlChars (Js.joinNl (x :: y :: rest2)).data).map
            String.mk = x :: y :: rest2
        have hdata : (Js.joinNl (x :: y :: rest2)).data
            = x.data ++ '\n' :: (Js.joinNl (y :: rest2)).data := by
          show (x ++ "\n" ++ Js.joinNl (y :: rest2)).data = _
          rw [String.data_append, String.data_append]
          rw [List.append_assoc]
          rfl
        rw [hdata, hA]
        simp only [List.append_nil, List.map_cons]
        rw [← hih]
        rfl

/-- C8: index.js's `generateCSV` overwrites the destination (the written
content does not depend on what the file held), and writes the fixed
header followed by one row per result in order; a row's characters are the
double-quoted URL, the four bare score fields (each a comma-preceded
rendering of the score) and the double-quoted error field — the Part0
variant is identical but ends at the SEO field with no error column.
When no row contains a newline the written file splits back into exactly
`header :: rows`. -/
theorem summary_serialization (previous previous' : Option String)
    (results : List AuditResult) :
    generateCSV previous results = some (csvContent results)
    ∧ generateCSV previous results = generateCSV previous' results
    ∧ csvContent results = Js.joinNl (csvHeader :: results.map csvRow)
    ∧ (results.map csvRow).length = results.length
    ∧ (∀ i : Nat, (results.map csvRow)[i]? = results[i]?.map csvRow)
    ∧ (∀ r : AuditResult, (csvRow r).data
        = '"' :: (r.url.data
          ++ '"' :: ',' :: ((scoreField r.Performance).data
          ++ ',' :: ((scoreField r.Accessibility).data
          ++ ',' :: ((scoreField r.BestPractices).data
          ++ ',' :: ((scoreField r.SEO).data
          ++ ',' :: '"' :: ((errField r.error).data ++ ['"'])))))))
    ∧ (∀ r : AuditResult, (Part0.csvRow r).data
        = '"' :: (r.url.data
          ++ '"' :: ',' :: ((scoreField r.Performance).data
          ++ ',' :: ((scoreField r.Accessibility).data
          ++ ',' :: ((scoreField r.BestPractices).data
          ++ ',' :: (scoreField r.SEO).data)))))
    ∧ Part0.csvContent results
        = Js.joinNl (Part0.csvHeader :: results.map Part0.csvRow)
    ∧ ((∀ r ∈ results, ∀ c ∈ (csvRow r).data, c ≠ '\n') →
        Js.splitNl (csvContent results)
          = csvHeader :: results.map csvRow) := by
  refine ⟨rfl, rfl, rfl, List.length_map results csvRow,
    fun i => List.getElem?_map csvRow results i, ?_, ?_, rfl, ?_⟩
  · intro r
    simp [csvRow, quoteField, String.data_append]
  · intro r
    simp [Part0.csvRow, quoteField, String.data_append]
  · intro hnl
    refine splitNl_joinNl (csvHeader :: results.map csvRow) ?_ (by simp)
    intro l hl
    rcases List.mem_cons.mp hl with hl | hl
    · subst hl; decide
    · rcases List.mem_map.mp hl with ⟨r, hr, hrow⟩
      subst hrow
      exact hnl r hr

/-- C8 (witness): a concrete one-result summary splits back into the
header line and that result's row. -/
theorem summary_serialization_witness :
    Js.splitNl (csvContent
        [⟨"https://example.com", .num 90, .num 95, .num 100, .num 88, none⟩])
      = csvHeader ::
        [csvRow ⟨"https://example.com", .num 90, .num 95, .num 100,
          .num 88, none⟩] := by
  exact (summary_serialization none (some "older content")
    [⟨"https://example.com", .num 90, .num 95, .num 100, .num 88,
      none⟩]).2.2.2.2.2.2.2.2 (by decide)

/-- C9 (counterexample): with an empty URL source and Part0's empty default
set, the run does not fail: the closing IIFE completes with exit code 0
and writes a header-only summary file — exactly the artefact the claim
says must not be produced. -/
theorem empty_workset_counterexample :
    Part0.urls (some "") = []
    ∧ Part0.mainRun (some "") (fun _ => .ok ())
        (fun _ => .ok ⟨some 1, some 1, some 1, some 1⟩)
      = ⟨0, some "URL,Performance,Accessibility,BestPractices,SEO"⟩ := by
  have hu : Part0.urls (some "") = [] := by decide
  refine ⟨hu, ?_⟩
  rw [Part0.mainRun, runInBatches_eq_map, hu]
  rfl

/-- C9 (amended): index.js's `main` does exit with code 1 and no summary
when the URL list is empty — but its built-in default set is non-empty, so
`loadUrls` never returns an empty list and that guard is unreachable from
the URL source; in Part0, whose default set is empty, an empty source
yields a normal exit (code 0) with a header-only summary file. -/
theorem empty_workset_amended
    (launchAt : String → Nat → Except String Unit)
    (engineAt : String → Nat → Except String LhrCategories)
    (maxRetries : Nat) (file : Option String) (urlsLoaded : List String)
    (launch0 : String → Except String Unit)
    (engine0 : String → Except String LhrCategories)
    (hload : loadUrls file = .ok urlsLoaded) :
    mainAfterLoad launchAt engineAt maxRetries [] = ⟨1, none⟩
    ∧ urlsLoaded ≠ []
    ∧ Part0.mainRun (some "") launch0 engine0 = ⟨0, some Part0.csvHeader⟩ := by
  refine ⟨rfl, ?_, ?_⟩
  · rcases file with _ | c
    · rw [show loadUrls none
          = Except.error "ENOENT: no such file or directory" from rfl]
        at hload
      exact Except.noConfusion hload
    · rw [show loadUrls (some c) = Except.ok defaultUrls from rfl] at hload
      have : defaultUrls = urlsLoaded := by
        injection hload
      rw [← this]
      decide
  · have hu : Part0.urls (some "") = [] := by decide
    rw [Part0.mainRun, runInBatches_eq_map, hu]
    rfl

/-- C9 (witness): index.js's `main` on an empty list exits with code 1 and
writes nothing, and `loadUrls` on a present (ignored) file returns the
non-empty default set. -/
theorem empty_workset_amended_witness :
    mainAfterLoad (fun _ _ => .ok ()) (fun _ _ => .error "boom") 2 []
      = ⟨1, none⟩
    ∧ defaultUrls ≠ [] := by
  have h := empty_workset_amended (fun _ _ => .ok ())
    (fun _ _ => .error "boom") 2 (some "ignored") defaultUrls
    (fun _ => .ok ()) (fun _ => .error "boom") rfl
  exact ⟨h.1, h.2.1⟩

theorem scoreField_zeroToAbsent (v : ScoreVal) :
    scoreField (zeroToAbsent v) = scoreField v := by
  cases v with
  | num n =>
    by_cases hn : n = 0 <;> simp [zeroToAbsent, scoreField, hn]
  | na => rfl
  | absent => rfl

/-- C10: the `|| ""` fallback erases zero scores in the summary: a record
whose scores include the number 0 serializes to exactly the same row — in
both CSV variants — as the record with those scores absent, and the cell
text for a zero score is the empty string, identical to an absent score's.
A legitimate 0 is therefore indistinguishable from a missing value in the
summary. -/
theorem zero_score_erasure (r : AuditResult) :
    csvRow (eraseZeroScores r) = csvRow r
    ∧ Part0.csvRow (eraseZeroScores r) = Part0.csvRow r
    ∧ scoreField (.num 0) = ""
    ∧ scoreField .absent = ""
    ∧ (eraseZeroScores r).url = r.url
    ∧ (eraseZeroScores r).error = r.error := by
  refine ⟨?_, ?_, rfl, rfl, rfl, rfl⟩
  · simp [csvRow, eraseZeroScores, scoreField_zeroToAbsent]
  · simp [Part0.csvRow, eraseZeroScores, scoreField_zeroToAbsent]

end LHRun
